import Mathlib

/-!
Verification of the reminder sync/display pipeline of the MoMents app
(`app.py`) and its standalone sync utility (`sync_slack_reminders.py`).

Python values relevant to the pipeline are shallowly embedded:
* a Slack reminder record (a JSON dict) becomes the structure `Reminder`,
  where `Option` models an absent key and `TimeVal` models the
  `isinstance(t, int)` test on the `time` field;
* Python string truthiness (`if token:`) is modelled explicitly
  (`none` / empty string are falsy);
* the local-timezone ISO-8601 rendering performed by the standard
  library (`datetime.fromtimestamp(...).astimezone().isoformat()`) is an
  external pure function of the epoch seconds once the local timezone is
  fixed, so it is passed as an explicit parameter `iso : Int → String`.
-/

/-- The `time` field of a reminder record as seen by `isinstance(t, int)`:
either a Python `int`, or some value of another type. -/
inductive TimeVal where
  | int (n : Int)
  | notInt
deriving DecidableEq, Repr

/-- A Slack reminder record (`r` in the Python loops). `none` models an
absent key. `complete_ts` is the completion epoch; Python treats `None`
and `0` as falsy. -/
structure Reminder where
  id : Option String
  text : Option String
  time : Option TimeVal
  complete_ts : Option Int
deriving DecidableEq, Repr

/-- A calendar event dict `{id, title, start, allDay}` built by the
normalizer loops. -/
structure Event where
  id : Option String
  title : String
  start : String
  allDay : Bool
deriving DecidableEq, Repr

/-- Truthiness of `r.get("complete_ts")`: present and nonzero. -/
def completeTruthy (r : Reminder) : Bool :=
  match r.complete_ts with
  | none => false
  | some n => n != 0

/-- `r.get("text") or "Reminder"` (then `str(...)`): falsy text (absent
or empty) falls back to the placeholder. -/
def titleOf (r : Reminder) : String :=
  match r.text with
  | none => "Reminder"
  | some s => if s = "" then "Reminder" else s

/-- `int(t) if isinstance(t, int) else 0` — the `_rem_time` sort key of
`render_status`, also used below to name the time of an eligible record. -/
def remTime (r : Reminder) : Int :=
  match r.time with
  | some (.int n) => n
  | _ => 0

/-- The loop body of `_fetch_slack_reminders_as_events` (app.py lines
98–118): skip records whose `time` is not an `int`, skip records whose
`complete_ts` is truthy, and append an event for the rest. -/
def normalizeEvents (iso : Int → String) : List Reminder → List Event
  | [] => []
  | r :: rs =>
    match r.time with
    | some (.int t) =>
      if completeTruthy r then normalizeEvents iso rs
      else { id := r.id, title := titleOf r, start := iso t, allDay := false }
        :: normalizeEvents iso rs
    | _ => normalizeEvents iso rs

/-- An entry of the raw `reminders` array in the sync utility: a dict
(parsed into `Reminder`) or a value of another type, which the loop
skips via `isinstance(r, dict)`. -/
inductive RawEntry where
  | record (r : Reminder)
  | nondict
deriving DecidableEq, Repr

/-- The event-building loop of `sync_slack_reminders.py` (lines 34–52):
skip non-dicts, skip truthy `complete_ts`, skip non-`int` `time`,
append an event for the rest. -/
def syncEvents (iso : Int → String) : List RawEntry → List Event
  | [] => []
  | .nondict :: rs => syncEvents iso rs
  | .record r :: rs =>
    if completeTruthy r then syncEvents iso rs
    else
      match r.time with
      | some (.int t) =>
        { id := r.id, title := titleOf r, start := iso t, allDay := false }
          :: syncEvents iso rs
      | _ => syncEvents iso rs

/-- A record survives normalization iff its `time` is an `int` and its
`complete_ts` is not truthy. -/
def eligible (r : Reminder) : Bool :=
  (match r.time with | some (.int _) => true | _ => false) && !completeTruthy r

/-- The event built from an eligible record. -/
def toEvent (iso : Int → String) (r : Reminder) : Event :=
  { id := r.id, title := titleOf r, start := iso (remTime r), allDay := false }

/-- Claim C1: for every input list of reminder records, the Event
Normalizer's output is no longer than the input, and is exactly the
order-preserving 1:1 image of the records that are neither completed
(`complete_ts` truthy) nor missing an integer `time`, each mapped to
`{id, title, start = iso(time), allDay = false}`; moreover the
standalone sync utility's loop computes the same list on dict-only
input. -/
theorem normalizer_filters_and_preserves_order (iso : Int → String) (rs : List Reminder) :
    (normalizeEvents iso rs).length ≤ rs.length ∧
    normalizeEvents iso rs = (rs.filter eligible).map (toEvent iso) ∧
    syncEvents iso (rs.map RawEntry.record) = normalizeEvents iso rs := by
  refine ⟨?_, ?_, ?_⟩
  · induction rs with
    | nil => simp [normalizeEvents]
    | cons r rs ih =>
      cases h : r.time with
      | none => simpa [normalizeEvents, h] using Nat.le_succ_of_le ih
      | some tv =>
        cases tv with
        | notInt => simpa [normalizeEvents, h] using Nat.le_succ_of_le ih
        | int t =>
          by_cases hc : completeTruthy r
          · simpa [normalizeEvents, h, hc] using Nat.le_succ_of_le ih
          · simpa [normalizeEvents, h, hc] using ih
  · induction rs with
    | nil => simp [normalizeEvents]
    | cons r rs ih =>
      cases h : r.time with
      | none => simp [normalizeEvents, h, eligible, ih]
      | some tv =>
        cases tv with
        | notInt => simp [normalizeEvents, h, eligible, ih]
        | int t =>
          by_cases hc : completeTruthy r
          · simp [normalizeEvents, h, hc, eligible, ih]
          · simp [normalizeEvents, h, hc, eligible, ih, toEvent, remTime]
  · induction rs with
    | nil => simp [normalizeEvents, syncEvents]
    | cons r rs ih =>
      cases h : r.time with
      | none =>
        by_cases hc : completeTruthy r <;>
          simp [normalizeEvents, syncEvents, h, hc, ih]
      | some tv =>
        cases tv with
        | notInt =>
          by_cases hc : completeTruthy r <;>
            simp [normalizeEvents, syncEvents, h, hc, ih]
        | int t =>
          by_cases hc : completeTruthy r <;>
            simp [normalizeEvents, syncEvents, h, hc, ih]

/-- Claim C9: the Event Normalizer is a pure function of the reminder
list and the (session-fixed) local-timezone rendering: equal inputs give
identical event lists, so normalizing the same list twice yields the
same output. -/
theorem normalizer_deterministic (iso : Int → String) (rs₁ rs₂ : List Reminder)
    (h : rs₁ = rs₂) : normalizeEvents iso rs₁ = normalizeEvents iso rs₂ := by
  rw [h]

/-- Witness for `normalizer_deterministic` at a concrete two-record list
(the spec's §8 scenario). -/
theorem normalizer_deterministic_witness :
    normalizeEvents (fun t => toString t)
        [⟨some "1", some "Pay rent", some (.int 1700000000), none⟩,
         ⟨some "2", some "Old", some (.int 1600000000), some 1600000100⟩] =
      normalizeEvents (fun t => toString t)
        [⟨some "1", some "Pay rent", some (.int 1700000000), none⟩,
         ⟨some "2", some "Old", some (.int 1600000000), some 1600000100⟩] :=
  normalizer_deterministic (fun t => toString t) _ _ rfl

/-! ## Token lookup (`_get_slack_user_token`, app.py lines 49–62)

`st.secrets.get` may raise or return `None`; both leave `token = None`,
modelled here as `secrets = none`. An empty string is falsy in Python,
so a `""` secret falls through to the environment, and `token or None`
turns an empty environment value into `None`. -/

/-- `_get_slack_user_token`: prefer Streamlit secrets, then the
environment; a falsy value at either stage falls through. -/
def getSlackUserToken (secrets env : Option String) : Option String :=
  let envPart : Option String :=
    match env with
    | none => none
    | some e => if e = "" then none else some e
  match secrets with
  | none => envPart
  | some s => if s = "" then envPart else some s

/-- Claim C8: the token lookup returns the secrets value whenever it is
non-empty, otherwise the environment value whenever it is non-empty,
otherwise no token — secrets first, then environment, first non-empty
wins (the interactive text input is only consulted by the UI after this
lookup comes back empty or is overridden). -/
theorem token_lookup_order (s e : String) :
    getSlackUserToken (some s) (some e)
        = (if s = "" then (if e = "" then none else some e) else some s) ∧
    getSlackUserToken none (some e) = (if e = "" then none else some e) ∧
    getSlackUserToken (some s) none = (if s = "" then none else some s) ∧
    getSlackUserToken none none = none := by
  refine ⟨?_, rfl, ?_, rfl⟩ <;> by_cases hs : s = "" <;> simp [getSlackUserToken, hs]

/-! ## Calendar render cycle (`render_calendar`, app.py lines 601–657)

The fetch performed by `_fetch_slack_reminders_as_events` returns either
an event list or an error message; within one render cycle it is a
function of the token. The session cache is the `slack_events` key:
`none` models "absent or not a list" (the `isinstance(..., list)`
check), `some evts` a previously stored list. -/

/-- Result of `_fetch_slack_reminders_as_events(token)`. -/
inductive FetchRes where
  | ok (events : List Event)
  | err (msg : String)
deriving DecidableEq, Repr

/-- Outcome of the right-pane logic of one calendar render cycle:
the event list handed to the calendar widget, the session cache
afterwards, whether a fetch was performed, and any warning shown. -/
structure CalendarRun where
  events : List Event
  cache : Option (List Event)
  fetched : Bool
  warning : Option String
deriving DecidableEq, Repr

/-- The fetch-and-store path shared by the auto-refresh branch (app.py
lines 620–625) and the no-cache branch (lines 629–634): on error, warn,
use `[]`, and leave the session cache untouched; on success, use and
store the fetched list. -/
def fetchInto (fetch : String → FetchRes) (tok : String)
    (oldCache : Option (List Event)) : CalendarRun :=
  match fetch tok with
  | .err e => { events := [], cache := oldCache, fetched := true, warning := some e }
  | .ok evts => { events := evts, cache := some evts, fetched := true, warning := none }

/-- The right-pane `if/elif/elif/else` chain of `render_calendar`
(app.py lines 616–636). `token` is the line-614 value
`session.get("slack_token") or _get_slack_user_token()`
(`none` = falsy). -/
def calendarRightPane (fetch : String → FetchRes) (autoRefresh : Bool)
    (token : Option String) (cache : Option (List Event)) : CalendarRun :=
  match autoRefresh, token, cache with
  | true, some tok, c => fetchInto fetch tok c
  | _, _, some evts =>
    { events := evts, cache := some evts, fetched := false, warning := none }
  | _, some tok, none => fetchInto fetch tok none
  | _, none, none =>
    { events := [], cache := none, fetched := false, warning := none }

/-- Claim C2: with auto-refresh disabled and a cached event list
present, the render cycle uses the cached list and performs no fetch;
in that mode a render-cycle fetch happens only when no cache exists
(and then exactly when a token is available — the remaining fetch path
is the explicit sync button, modelled separately). -/
theorem cached_mode_uses_cache_without_fetch (fetch : String → FetchRes)
    (token : Option String) (c : List Event) :
    calendarRightPane fetch false token (some c)
        = { events := c, cache := some c, fetched := false, warning := none } ∧
    (calendarRightPane fetch false token none).fetched = token.isSome := by
  constructor
  · cases token <;> rfl
  · cases token with
    | none => rfl
    | some tok => cases h : fetch tok <;> simp [calendarRightPane, fetchInto, h]

/-! ## Explicit sync button (`render_calendar`, app.py lines 601–610) -/

/-- The "Sync from Slack" button action: with a falsy token it only
shows an error; on a fetch error it shows the error; only on success
does it assign `session["slack_events"]`. Returns the session cache
afterwards and the error message, if any (`token` is the text-input
string, falsy iff empty). -/
def syncButtonAction (fetch : String → FetchRes) (token : String)
    (cache : Option (List Event)) : Option (List Event) × Option String :=
  if token = "" then
    (cache, some "Set SLACK_USER_TOKEN (or paste a token) before syncing.")
  else
    match fetch token with
    | .err e => (cache, some e)
    | .ok evts => (some evts, none)

/-- Claim C10: whenever the explicit sync action reports an error, the
session cache it leaves behind is exactly the cache it started from —
the error path never assigns `slack_events`, so a previously loaded
cache survives a failed explicit sync. -/
theorem failed_explicit_sync_preserves_cache (fetch : String → FetchRes)
    (token : String) (cache out : Option (List Event)) (e : String)
    (h : syncButtonAction fetch token cache = (out, some e)) : out = cache := by
  by_cases ht : token = ""
  · simp [syncButtonAction, ht, Prod.ext_iff] at h
    exact h.1.symm
  · cases hf : fetch token with
    | ok evts => simp [syncButtonAction, ht, hf, Prod.ext_iff] at h
    | err m =>
      simp [syncButtonAction, ht, hf, Prod.ext_iff] at h
      exact h.1.symm

/-- Witness for `failed_explicit_sync_preserves_cache`: a failing fetch
with a one-event cache in place. -/
theorem failed_explicit_sync_preserves_cache_witness :
    some [({ id := some "1", title := "Pay rent", start := "s", allDay := false } : Event)]
      = some [({ id := some "1", title := "Pay rent", start := "s", allDay := false } : Event)] :=
  failed_explicit_sync_preserves_cache (fun _ => .err "Slack API error: invalid_auth") "tok"
    (some [{ id := some "1", title := "Pay rent", start := "s", allDay := false }])
    (some [{ id := some "1", title := "Pay rent", start := "s", allDay := false }])
    "Slack API error: invalid_auth" rfl

/-! ## Standalone sync utility (`sync_slack_reminders.py`, lines 19–55)

`main` raises `SystemExit` with a descriptive message (a non-zero
process exit, no file written) when `SLACK_USER_TOKEN` is falsy or when
`reminders_list` raises a `SlackApiError`; only after a successful
fetch does it normalize and write `reminders.json`. -/

/-- Result of the `client.reminders_list()` call in the sync utility. -/
inductive ApiResult where
  | ok (reminders : List RawEntry)
  | apiError (msg : String)
deriving Repr

/-- Outcome of a run of the sync utility's `main`: a fatal `SystemExit`
with its message, or the event list written to the output file. -/
inductive SyncOutcome where
  | fatal (msg : String)
  | wrote (events : List Event)
deriving DecidableEq, Repr

/-- `true` on the `SystemExit` outcome (non-zero exit, no file written). -/
def SyncOutcome.isFatal : SyncOutcome → Bool
  | .fatal _ => true
  | .wrote _ => false

/-- `main` of `sync_slack_reminders.py`: check the token, call the API,
normalize, write. `tokenEnv` is `os.environ.get("SLACK_USER_TOKEN")`
(`none` = unset; the empty string is falsy too). -/
def syncMain (iso : Int → String) (tokenEnv : Option String) (api : ApiResult) : SyncOutcome :=
  match tokenEnv with
  | none => .fatal "Missing SLACK_USER_TOKEN environment variable"
  | some tok =>
    if tok = "" then .fatal "Missing SLACK_USER_TOKEN environment variable"
    else
      match api with
      | .apiError e => .fatal ("Slack API error: " ++ e)
      | .ok rems => .wrote (syncEvents iso rems)

/-- Claim C7: the sync utility exits fatally (non-zero, with a
descriptive message, writing no output file) when the token environment
variable is missing/empty or when the reminder-list API call fails; the
events file is written only in the remaining case, after a successful
fetch and normalization. -/
theorem sync_utility_fatal_paths (iso : Int → String) (api : ApiResult)
    (tok e : String) (rems : List RawEntry) :
    syncMain iso none api = .fatal "Missing SLACK_USER_TOKEN environment variable" ∧
    syncMain iso (some "") api = .fatal "Missing SLACK_USER_TOKEN environment variable" ∧
    (syncMain iso (some tok) (.apiError e)).isFatal = true ∧
    syncMain iso (some tok) (.ok rems)
        = (if tok = "" then .fatal "Missing SLACK_USER_TOKEN environment variable"
           else .wrote (syncEvents iso rems)) := by
  refine ⟨rfl, rfl, ?_, ?_⟩ <;> by_cases ht : tok = "" <;>
    simp [syncMain, ht, SyncOutcome.isFatal]

/-! ## Completion action (`render_status`, app.py lines 519–530)

The button handler loops over the selected ids: each id gets its own
`_complete_slack_reminder` call; a failed call with a message appends
`"{rid}: {e}"` to `errors`; and the `status_done_{rid}` checkbox key is
popped from the session whatever the call returned. Afterwards the
collected errors, if any, are shown as one `"\n".join(errors)` message.

The per-id call result is modelled as `complete : String → Bool × Option String`
(fixed within the one button press), and the set of `status_done_*`
session keys as a list of key strings. -/

/-- The checkbox session key for a reminder id. -/
def statusDoneKey (rid : String) : String := "status_done_" ++ rid

/-- The `for rid in selected_ids` loop (app.py lines 521–526): returns
the collected error strings and the remaining session keys. -/
def markSelectedCompleted (complete : String → Bool × Option String) :
    List String → List String → List String × List String
  | [], flags => ([], flags)
  | rid :: rest, flags =>
    let res := complete rid
    let errHere : List String :=
      match res.1, res.2 with
      | false, some e => if e = "" then [] else [rid ++ ": " ++ e]
      | _, _ => []
    let flags1 := flags.filter (fun k => k ≠ statusDoneKey rid)
    let out := markSelectedCompleted complete rest flags1
    (errHere ++ out.1, out.2)

/-- `true` when the per-id call failed with a truthy message (the only
case the loop records: `if not ok and e`). -/
def completionFailed (res : Bool × Option String) : Bool :=
  !res.1 && (match res.2 with | some e => e != "" | none => false)

/-- The recorded error line for a failed id (`f"{rid}: {e}"`). -/
def completionErrLine (rid : String) (res : Bool × Option String) : String :=
  rid ++ ": " ++ (res.2.getD "")

/-- The combined report (app.py lines 528–529): `"\n".join(errors)`
when any error was collected, nothing otherwise. -/
def completionReport (errors : List String) : Option String :=
  if errors = [] then none else some (String.intercalate "\n" errors)

/-- Claim C3: the completion action attempts every selected id (one
id's failure never stops the loop), the collected error list is exactly
the per-id error lines of the failed calls reported together in one
joined message, and every attempted id's `status_done_*` session flag
is removed whether or not its call succeeded (the surviving keys do not
depend on the call results at all). -/
theorem completion_attempts_all_collects_errors_clears_flags
    (complete : String → Bool × Option String) (ids flags : List String) :
    (markSelectedCompleted complete ids flags).1
        = (ids.filter (fun rid => completionFailed (complete rid))).map
            (fun rid => completionErrLine rid (complete rid)) ∧
    (markSelectedCompleted complete ids flags).2
        = flags.filter (fun k => ids.all (fun rid => k ≠ statusDoneKey rid)) ∧
    completionReport (markSelectedCompleted complete ids flags).1
        = (if (markSelectedCompleted complete ids flags).1 = [] then none
           else some (String.intercalate "\n" (markSelectedCompleted complete ids flags).1)) := by
  refine ⟨?_, ?_, rfl⟩
  · induction ids generalizing flags with
    | nil => simp [markSelectedCompleted]
    | cons rid rest ih =>
      cases hres : complete rid with
      | mk ok e =>
        cases ok with
        | true =>
          simp [markSelectedCompleted, hres, completionFailed, ih]
        | false =>
          cases e with
          | none => simp [markSelectedCompleted, hres, completionFailed, ih]
          | some msg =>
            by_cases hm : msg = "" <;>
              simp [markSelectedCompleted, hres, completionFailed, completionErrLine, hm, ih]
  · induction ids generalizing flags with
    | nil => simp [markSelectedCompleted]
    | cons rid rest ih =>
      have step : (markSelectedCompleted complete (rid :: rest) flags).2
          = (markSelectedCompleted complete rest
              (flags.filter (fun k => k ≠ statusDoneKey rid))).2 := by
        cases hres : complete rid with
        | mk ok e => simp [markSelectedCompleted, hres]
      rw [step, ih, List.filter_filter]
      apply List.filter_congr
      intro k _
      simp [List.all_cons, Bool.and_comm]

/-! ## To-do view ordering (`render_status`, app.py lines 478–491)

`incomplete.sort(key=_rem_time)` and
`complete.sort(key=_rem_time, reverse=True)` are Python's stable sort
by the integer key `_rem_time` (`remTime` above; records without an
integer `time` get key `0`). A stable sort by an integer key is modelled
by stable insertion sort: an element is inserted after every earlier
element whose key does not force it later. -/

/-- Stable ascending insertion: `x` goes before the first element whose
key is `≥ key x`, so earlier input elements win ties. -/
def insertAscBy (key : α → Int) (x : α) : List α → List α
  | [] => [x]
  | y :: ys => if key y < key x then y :: insertAscBy key x ys else x :: y :: ys

/-- Stable ascending sort by an integer key (the semantics of Python's
`list.sort(key=...)`). -/
def sortAscBy (key : α → Int) : List α → List α
  | [] => []
  | x :: xs => insertAscBy key x (sortAscBy key xs)

/-- Stable descending insertion: `x` goes before the first element whose
key is `≤ key x`, so earlier input elements win ties (the semantics of
`reverse=True`, which never reorders equal keys). -/
def insertDescBy (key : α → Int) (x : α) : List α → List α
  | [] => [x]
  | y :: ys => if key x < key y then y :: insertDescBy key x ys else x :: y :: ys

/-- Stable descending sort by an integer key
(`list.sort(key=..., reverse=True)`). -/
def sortDescBy (key : α → Int) : List α → List α
  | [] => []
  | x :: xs => insertDescBy key x (sortDescBy key xs)

theorem perm_insertAscBy (key : α → Int) (x : α) (l : List α) :
    List.Perm (insertAscBy key x l) (x :: l) := by
  induction l with
  | nil => exact List.Perm.refl _
  | cons y ys ih =>
    by_cases h : key y < key x
    · simp only [insertAscBy, if_pos h]
      exact (ih.cons y).trans (List.Perm.swap x y ys)
    · simp only [insertAscBy, if_neg h]
      exact List.Perm.refl _

theorem perm_sortAscBy (key : α → Int) (l : List α) : List.Perm (sortAscBy key l) l := by
  induction l with
  | nil => exact List.Perm.refl _
  | cons x xs ih => exact (perm_insertAscBy key x _).trans (ih.cons x)

theorem pairwise_insertAscBy (key : α → Int) (x : α) (l : List α)
    (h : l.Pairwise (fun a b => key a ≤ key b)) :
    (insertAscBy key x l).Pairwise (fun a b => key a ≤ key b) := by
  induction l with
  | nil => simp [insertAscBy]
  | cons y ys ih =>
    rcases List.pairwise_cons.1 h with ⟨hy, hys⟩
    by_cases hlt : key y < key x
    · simp only [insertAscBy, if_pos hlt]
      refine List.pairwise_cons.2 ⟨?_, ih hys⟩
      intro a ha
      rcases List.mem_cons.1 ((perm_insertAscBy key x ys).mem_iff.1 ha) with rfl | ha'
      · exact le_of_lt hlt
      · exact hy a ha'
    · simp only [insertAscBy, if_neg hlt]
      have hxy : key x ≤ key y := le_of_not_lt hlt
      refine List.pairwise_cons.2 ⟨?_, h⟩
      intro a ha
      rcases List.mem_cons.1 ha with rfl | ha'
      · exact hxy
      · exact hxy.trans (hy a ha')

theorem pairwise_sortAscBy (key : α → Int) (l : List α) :
    (sortAscBy key l).Pairwise (fun a b => key a ≤ key b) := by
  induction l with
  | nil => simp [sortAscBy]
  | cons x xs ih => exact pairwise_insertAscBy key x _ ih

theorem insertDescBy_eq_insertAscBy_neg (key : α → Int) (x : α) (l : List α) :
    insertDescBy key x l = insertAscBy (fun a => -key a) x l := by
  induction l with
  | nil => rfl
  | cons y ys ih =>
    by_cases h : key x < key y
    · have h' : -key y < -key x := by omega
      simp only [insertDescBy, if_pos h, insertAscBy, if_pos h', ih]
    · have h' : ¬(-key y < -key x) := by omega
      simp only [insertDescBy, if_neg h, insertAscBy, if_neg h']

theorem sortDescBy_eq_sortAscBy_neg (key : α → Int) (l : List α) :
    sortDescBy key l = sortAscBy (fun a => -key a) l := by
  induction l with
  | nil => rfl
  | cons x xs ih => simp only [sortDescBy, sortAscBy, ih, insertDescBy_eq_insertAscBy_neg]

theorem perm_sortDescBy (key : α → Int) (l : List α) : List.Perm (sortDescBy key l) l := by
  rw [sortDescBy_eq_sortAscBy_neg]; exact perm_sortAscBy _ l

theorem pairwise_sortDescBy (key : α → Int) (l : List α) :
    (sortDescBy key l).Pairwise (fun a b => key b ≤ key a) := by
  rw [sortDescBy_eq_sortAscBy_neg]
  exact (pairwise_sortAscBy (fun a => -key a) l).imp (fun {a b} h => by omega)

/-- The to-do view's two ordered lists (app.py lines 478–491): active
reminders (falsy `complete_ts`) sorted ascending by `_rem_time`, and
completed reminders sorted descending by the same key. -/
def statusLists (rems : List Reminder) : List Reminder × List Reminder :=
  (sortAscBy remTime (rems.filter (fun r => !completeTruthy r)),
   sortDescBy remTime (rems.filter (fun r => completeTruthy r)))

/-- Counterexample to claim C4 as stated: both records are active, `b`
has the integer time `0` and `a` has no time, yet on input `[b, a]` the
to-do ordering leaves the untimed `a` *after* the timed `b` (their sort
keys tie at `0` and the stable sort keeps input order), so an active
reminder with no time is not always placed before all timed
reminders. -/
theorem status_untimed_not_before_timed_counterexample :
    (statusLists [⟨some "b", some "B", some (.int 0), none⟩,
                  ⟨some "a", some "A", none, none⟩]).1
        = [⟨some "b", some "B", some (.int 0), none⟩,
           ⟨some "a", some "A", none, none⟩] ∧
    (⟨some "a", some "A", none, none⟩ : Reminder).time = none ∧
    (⟨some "b", some "B", some (.int 0), none⟩ : Reminder).time = some (.int 0) ∧
    completeTruthy ⟨some "a", some "A", none, none⟩ = false ∧
    completeTruthy ⟨some "b", some "B", some (.int 0), none⟩ = false := by
  decide

/-- Claim C4 (amended): the to-do view sorts the active reminders into
an order that is ascending in the `_rem_time` key (so a reminder with
integer time `t1 < t2` is placed before one with `t2`, and a reminder
with no — or non-integer — time carries key `0` and is therefore placed
before every timed reminder with positive time, though not before timed
reminders with time `≤ 0`); the completed reminders are ordered
descending in the same key; and both outputs are permutations of the
corresponding filtered input. -/
theorem status_ordering_sorted_amended (rems : List Reminder) :
    (statusLists rems).1.Pairwise (fun a b => remTime a ≤ remTime b) ∧
    (statusLists rems).2.Pairwise (fun a b => remTime b ≤ remTime a) ∧
    (statusLists rems).1.Perm (rems.filter (fun r => !completeTruthy r)) ∧
    (statusLists rems).2.Perm (rems.filter (fun r => completeTruthy r)) :=
  ⟨pairwise_sortAscBy remTime _, pairwise_sortDescBy remTime _,
   perm_sortAscBy remTime _, perm_sortDescBy remTime _⟩

/-! ## Repository store (`save_summary_to_repository`, app.py lines 148–183)

The note file content is a pure function of the title, the two
`datetime.now()` renderings (timestamp prefix and `Created:` line,
passed as parameters), the source metadata, and the summary body.
Python strings are embedded as Lean `String`s (lists of characters). -/

/-- The ASCII whitespace characters stripped by Python's `str.strip()`
and split on by `str.split()`. -/
def isPyWs (c : Char) : Bool :=
  c = ' ' || c = '\t' || c = '\n' || c = '\r' || c = '\x0b' || c = '\x0c'

/-- `str.strip()` on the character list: drop whitespace from both ends. -/
def pyStripData (cs : List Char) : List Char :=
  ((cs.dropWhile isPyWs).reverse.dropWhile isPyWs).reverse

/-- `str.strip()`. -/
def pyStrip (s : String) : String := ⟨pyStripData s.data⟩

/-- `source_name or 'N/A'` (app.py line 170): falsy source name falls
back to the placeholder. -/
def sourceNameEff (source_name : Option String) : String :=
  match source_name with
  | none => "N/A"
  | some s => if s = "" then "N/A" else s

/-- The file content written by `save_summary_to_repository` (app.py
lines 165–176): `"\n".join(header) + summary.strip() + "\n"` with the
eight header entries of the source, the two `datetime.now()` renderings
abstracted as `created`. -/
def noteContent (title created source_type : String) (source_name : Option String)
    (summary : String) : String :=
  "# " ++ title ++ "\n\n- Created: " ++ created ++ "\n- Source type: " ++ source_type ++
    "\n- Source name: " ++ sourceNameEff source_name ++ "\n\n---\n" ++ pyStrip summary ++ "\n"

/-- The first line of a character list. -/
def takeFirstLine (cs : List Char) : List Char := cs.takeWhile (fun c => c ≠ '\n')

/-- Everything after the first line of a character list. -/
def dropFirstLine (cs : List Char) : List Char := (cs.dropWhile (fun c => c ≠ '\n')).drop 1

/-- Drop the first `n` lines. -/
def dropLines : Nat → List Char → List Char
  | 0, cs => cs
  | n + 1, cs => dropLines n (dropFirstLine cs)

/-- Modelled from the spec: the repository has no note reader in the
source (browsing renders the raw file), so reading a note back follows
the documented file format — the title is the header line `# <title>`,
i.e. the first line of the file without the `# ` marker. -/
def readNoteTitle (content : String) : String :=
  ⟨(takeFirstLine content.data).drop 2⟩

/-- Modelled from the spec: reading the body back follows the
documented file format — the free-text body is everything after the
separator line, i.e. after the seven header lines (`# <title>`, a blank
line, the three metadata lines, a blank line, `---`), without the final
newline the writer appends. -/
def readNoteBody (content : String) : String :=
  let rest := dropLines 7 content.data
  ⟨if rest.getLast? = some '\n' then rest.dropLast else rest⟩

theorem takeFirstLine_append (a b : List Char) (h : '\n' ∉ a) :
    takeFirstLine (a ++ '\n' :: b) = a := by
  induction a with
  | nil => simp [takeFirstLine]
  | cons x xs ih =>
    have hx : ¬x = '\n' := fun e => h (by rw [e]; exact List.mem_cons_self _ _)
    have hxs : '\n' ∉ xs := fun m => h (List.mem_cons_of_mem _ m)
    simp [takeFirstLine, List.takeWhile_cons, hx] at ih ⊢
    exact ih hxs

theorem dropFirstLine_append (a b : List Char) (h : '\n' ∉ a) :
    dropFirstLine (a ++ '\n' :: b) = b := by
  induction a with
  | nil => simp [dropFirstLine]
  | cons x xs ih =>
    have hx : ¬x = '\n' := fun e => h (by rw [e]; exact List.mem_cons_self _ _)
    have hxs : '\n' ∉ xs := fun m => h (List.mem_cons_of_mem _ m)
    simp [dropFirstLine, List.dropWhile_cons, hx] at ih ⊢
    exact ih hxs

theorem nl_not_mem_append {u v : List Char} (hu : '\n' ∉ u) (hv : '\n' ∉ v) :
    '\n' ∉ u ++ v := by
  intro m
  rcases List.mem_append.1 m with m | m
  · exact hu m
  · exact hv m

theorem noteContent_data (t c ty : String) (sn : Option String) (b : String) :
    (noteContent t c ty sn b).data =
      (('#' :: ' ' :: t.data) ++ '\n' :: ([] ++ '\n' ::
        (("- Created: ".data ++ c.data) ++ '\n' ::
          (("- Source type: ".data ++ ty.data) ++ '\n' ::
            (("- Source name: ".data ++ (sourceNameEff sn).data) ++ '\n' :: ([] ++ '\n' ::
              (['-','-','-'] ++ '\n' :: (pyStripData b.data ++ ['\n'])))))))) := by
  simp [noteContent, pyStrip, List.append_assoc]

/-- Counterexample to claim C5 as stated: for the body `" x "` the file
written by save holds `x` (the writer applies `summary.strip()`), so the
body read back is not the body passed to save. The title round-trips
here, but the body does not. -/
theorem note_body_strip_counterexample :
    readNoteTitle (noteContent "T" "2024-01-01T00:00:00" "Text file" none " x ") = "T" ∧
    readNoteBody (noteContent "T" "2024-01-01T00:00:00" "Text file" none " x ") = "x" ∧
    readNoteBody (noteContent "T" "2024-01-01T00:00:00" "Text file" none " x ") ≠ " x " := by
  decide

/-- Claim C5 (amended): the note file written by save reproduces, when
read back per the documented format, the exact title on the header line
(provided the title and the other header fields contain no newline,
which would break the line structure) and the *stripped* body after the
separator — `summary.strip()` — hence the exact body precisely when the
body has no leading or trailing whitespace. -/
theorem note_roundtrip_amended (t c ty : String) (sn : Option String) (b : String)
    (ht : '\n' ∉ t.data) (hc : '\n' ∉ c.data) (hty : '\n' ∉ ty.data)
    (hsn : '\n' ∉ (sourceNameEff sn).data) :
    readNoteTitle (noteContent t c ty sn b) = t ∧
    readNoteBody (noteContent t c ty sn b) = pyStrip b ∧
    (pyStrip b = b → readNoteBody (noteContent t c ty sn b) = b) := by
  have h1 : '\n' ∉ ('#' :: ' ' :: t.data) := by
    intro hm
    rcases List.mem_cons.1 hm with e | hm1
    · exact absurd e (by decide)
    rcases List.mem_cons.1 hm1 with e | hm2
    · exact absurd e (by decide)
    exact ht hm2
  have h3 : '\n' ∉ ("- Created: ".data ++ c.data) :=
    nl_not_mem_append (by decide) hc
  have h4 : '\n' ∉ ("- Source type: ".data ++ ty.data) :=
    nl_not_mem_append (by decide) hty
  have h5 : '\n' ∉ ("- Source name: ".data ++ (sourceNameEff sn).data) :=
    nl_not_mem_append (by decide) hsn
  have hemp : '\n' ∉ ([] : List Char) := by decide
  have hsep : '\n' ∉ (['-', '-', '-'] : List Char) := by decide
  have hbody : dropLines 7 (noteContent t c ty sn b).data
      = pyStripData b.data ++ ['\n'] := by
    rw [noteContent_data]
    simp only [dropLines]
    rw [dropFirstLine_append _ _ h1, dropFirstLine_append _ _ hemp,
      dropFirstLine_append _ _ h3, dropFirstLine_append _ _ h4,
      dropFirstLine_append _ _ h5, dropFirstLine_append _ _ hemp,
      dropFirstLine_append _ _ hsep]
  refine ⟨?_, ?_, ?_⟩
  · show (⟨(takeFirstLine (noteContent t c ty sn b).data).drop 2⟩ : String) = t
    rw [noteContent_data, takeFirstLine_append _ _ h1]
    rfl
  · show (⟨_⟩ : String) = pyStrip b
    rw [hbody]
    simp [List.getLast?_concat, List.dropLast_concat, pyStrip]
  · intro hb
    show (⟨_⟩ : String) = b
    rw [hbody]
    simp only [List.getLast?_concat, if_pos rfl, List.dropLast_concat]
    calc (⟨pyStripData b.data⟩ : String) = pyStrip b := rfl
      _ = b := hb

/-- Witness for `note_roundtrip_amended`: a concrete note whose body is
already stripped (and multi-line), so title and body round-trip
exactly. -/
theorem note_roundtrip_amended_witness :
    readNoteTitle (noteContent "Meeting notes" "2024-01-01T00:00:00" "Text file"
        (some "notes.txt") "hello\nworld") = "Meeting notes" ∧
    readNoteBody (noteContent "Meeting notes" "2024-01-01T00:00:00" "Text file"
        (some "notes.txt") "hello\nworld") = pyStrip "hello\nworld" ∧
    (pyStrip "hello\nworld" = "hello\nworld" →
      readNoteBody (noteContent "Meeting notes" "2024-01-01T00:00:00" "Text file"
        (some "notes.txt") "hello\nworld") = "hello\nworld") :=
  note_roundtrip_amended "Meeting notes" "2024-01-01T00:00:00" "Text file"
    (some "notes.txt") "hello\nworld" (by decide) (by decide) (by decide) (by decide)

/-! ## Filename generation (`_safe_filename` and the path of
`save_summary_to_repository`, app.py lines 152–163) -/

/-- `str.split()` with no separator: split on runs of whitespace,
producing no empty words (`acc` carries the current word reversed). -/
def splitWsAux : List Char → List Char → List (List Char)
  | [], acc => if acc.isEmpty then [] else [acc.reverse]
  | c :: cs, acc =>
    if isPyWs c then
      if acc.isEmpty then splitWsAux cs [] else acc.reverse :: splitWsAux cs []
    else splitWsAux cs (c :: acc)

/-- `_safe_filename` (app.py lines 152–155): keep alphanumeric, `-`,
`_` and space; strip; collapse whitespace runs to single underscores;
fall back to `"summary"` when empty. (`Char.isAlphanum` matches
Python's `str.isalnum` on ASCII.) -/
def safeFilename (name : String) : String :=
  let kept := name.data.filter (fun ch => ch.isAlphanum || ch = '-' || ch = '_' || ch = ' ')
  let cleaned :=
    String.intercalate "_" ((splitWsAux (pyStripData kept) []).map fun w => (⟨w⟩ : String))
  if cleaned = "" then "summary" else cleaned

/-- The filename built by `save_summary_to_repository` (app.py lines
161–163): `f"{ts}_{_safe_filename(title)}.md"`, where `ts` is the
second-resolution `%Y%m%d_%H%M%S` rendering of `datetime.now()`,
passed as a parameter. The path is this name under the fixed
repository directory, so paths differ exactly when these names do. -/
def savePath (ts title : String) : String :=
  ts ++ "_" ++ safeFilename title ++ ".md"

/-- Counterexample to claim C6 as stated: the filename is a pure
function of the timestamp and the title, so two save calls with the
same title and equal second-resolution timestamps build the very same
path — the second write overwrites the first, not a distinct file. -/
theorem same_second_same_title_same_path :
    savePath "20240101_120000" "My Note" = "20240101_120000_My_Note.md" ∧
    ¬savePath "20240101_120000" "My Note" ≠ savePath "20240101_120000" "My Note" := by
  constructor
  · decide
  · intro h
    exact h rfl

/-- Claim C6 (amended): two save calls with the same title produce the
same path when their second-resolution timestamps are equal (overwrite,
no second file); distinct paths are guaranteed exactly by distinct
timestamps — whenever the two rendered timestamps differ (they always
have the same 15-character `%Y%m%d_%H%M%S` length), the two paths
differ, whatever the titles are. -/
theorem distinct_timestamps_distinct_paths (ts₁ ts₂ t₁ t₂ : String)
    (hlen : ts₁.length = ts₂.length) (hne : ts₁ ≠ ts₂) :
    savePath ts₁ t₁ ≠ savePath ts₂ t₂ := by
  intro h
  apply hne
  have hd : ts₁.data ++ ('_' :: ((safeFilename t₁).data ++ ['.', 'm', 'd']))
      = ts₂.data ++ ('_' :: ((safeFilename t₂).data ++ ['.', 'm', 'd'])) := by
    have := congrArg String.data h
    simpa [savePath, List.append_assoc] using this
  exact congrArg String.mk (List.append_inj_left hd hlen)

/-- Witness for `distinct_timestamps_distinct_paths`: saves one second
apart with the same title get distinct paths. -/
theorem distinct_timestamps_distinct_paths_witness :
    savePath "20240101_120000" "My Note" ≠ savePath "20240101_120001" "My Note" :=
  distinct_timestamps_distinct_paths "20240101_120000" "20240101_120001" "My Note" "My Note"
    (by decide) (by decide)
